import Mathlib

/-!
Verification development for the `yeelib_rs` discovery-and-decode pipeline
(`src/lib.rs`, `src/light.rs`).

The embedding follows the source:
* `Light`, `Light.from_fields` and the per-field extraction (the `get_field!`
  macro arms) come from `src/light.rs`.
* `get_response`, the search message, the cleaning of the receive buffer, the
  header-map construction and the dedupe step come from `src/lib.rs`.
* The HTTP response parsing performed by the external `httparse` crate is
  embedded at the character level (status line, then `Name: value` header
  lines, with a capacity of 17 headers, partial input yielding the headers
  completed so far).
* The `FromStr` implementations for `PowerStatus`, `ColorMode` and `Rgb` live
  in `src/fields.rs`, which is not part of the sources available here; they
  are modelled from the spec (each such definition carries a
  `Modelled from the spec:` doc comment).

Machine integers (`u8`, `u16`, the packed 24-bit RGB value) are embedded as
`Nat` with explicit range checks, mirroring Rust's checked decimal parsing.
-/

set_option maxRecDepth 100000

namespace Yee

/-- Decidable equality for `Except`, so that concrete decoder results can be
evaluated by `decide`. -/
instance {ε α : Type} [DecidableEq ε] [DecidableEq α] : DecidableEq (Except ε α) :=
  fun a b =>
    match a, b with
    | .error e, .error f =>
      if h : e = f then .isTrue (h ▸ rfl)
      else .isFalse (fun hh => h (Except.error.inj hh))
    | .ok x, .ok y =>
      if h : x = y then .isTrue (h ▸ rfl)
      else .isFalse (fun hh => h (Except.ok.inj hh))
    | .error _, .ok _ => .isFalse (fun hh => Except.noConfusion hh)
    | .ok _, .error _ => .isFalse (fun hh => Except.noConfusion hh)

/-- IPv4 socket address (`std::net::SocketAddrV4`): four octets plus a port. -/
structure SocketAddrV4 where
  ip : Nat × Nat × Nat × Nat
  port : Nat
deriving DecidableEq

/-- Power state of a light (`fields::PowerStatus`). -/
inductive PowerStatus where
  | on
  | off
deriving DecidableEq

/-- Color mode of a light (`fields::ColorMode`). -/
inductive ColorMode where
  | color
  | colorTemperature
  | hsv
deriving DecidableEq

/-- Unpacked RGB triple (`fields::Rgb`); each component is a byte. -/
structure Rgb where
  red : Nat
  green : Nat
  blue : Nat
deriving DecidableEq

/-- Error type used by the field decoder (`err::YeeError`), with the two
variants `Light::from_fields` produces: `FieldNotFound` when a header is
absent and `ParseFieldError` when its value fails to parse. -/
inductive YeeError where
  | fieldNotFound (field_name : String)
  | parseFieldError (field_name : String)
deriving DecidableEq

/-- One discovered light (`light::Light`).  The `connection` field is a
lazily initialised TCP handle, always `none` at construction; its payload is
irrelevant to the decoder, so it is modelled as `Unit`. -/
structure Light where
  location : SocketAddrV4
  id : String
  model : String
  fw_ver : Nat
  support : List String
  power : PowerStatus
  bright : Nat
  color_mode : ColorMode
  ct : Nat
  rgb : Rgb
  hue : Nat
  sat : Nat
  name : String
  connection : Option Unit
deriving DecidableEq

/-- Equality of lights (`impl PartialEq for Light`): compares only `id`. -/
def lightEq (a b : Light) : Bool :=
  a.id == b.id

/-- Data fed to the hasher by `impl Hash for Light`: the bytes of `id`
(modelled by its character list) and nothing else. -/
def lightHashData (l : Light) : List Char :=
  l.id.data

/-! ## Header map

`get_response` collects the parsed headers into a
`HashMap<&str, Cow<str>>`; insertion overwrites the entry for an existing
key, so duplicate header names resolve to the last occurrence.  The map is
embedded as an association list built by `hmInsert`, which preserves the
hash-map invariant of at most one entry per key. -/

abbrev HeaderMap := List (String × String)

/-- Lookup in the header map (`HashMap::get`): the value of the first entry
with the given key.  On lists without duplicate keys — the only ones
`hmInsert` builds — this is exact. -/
def hmGet : HeaderMap → String → Option String
  | [], _ => none
  | p :: m, k => if p.1 == k then some p.2 else hmGet m k

/-- `HashMap::insert`: replace the entry for `k` if present, append
otherwise. -/
def hmInsert (m : HeaderMap) (k v : String) : HeaderMap :=
  if m.any (fun p => p.1 == k) then
    m.map (fun p => if p.1 == k then (k, v) else p)
  else
    m ++ [(k, v)]

/-- `FromIterator for HashMap`: insert the parsed headers one by one, in
order (lines 64-69 of `src/lib.rs`). -/
def collectHeaders (hs : List (String × String)) : HeaderMap :=
  hs.foldl (fun m h => hmInsert m h.1 h.2) []

/-! ## Field parsing -/

/-- Rust's unsigned decimal `from_str`: an optional leading `+`, then at
least one ASCII digit; anything else fails. -/
def parseDecimal (s : String) : Option Nat :=
  let cs := match s.data with
    | c :: rest => if c == '+' then rest else c :: rest
    | [] => []
  if cs.isEmpty then none
  else if cs.all (fun c => c.isDigit) then
    some (cs.foldl (fun a c => a * 10 + (c.toNat - 48)) 0)
  else none

/-- Rust's checked parse into a `w`-bit unsigned integer (`str::parse::<u8>`,
`str::parse::<u16>`): strict decimal parsing plus the range check for the
declared width. -/
def parseUIntWidth (w : Nat) (s : String) : Option Nat :=
  match parseDecimal s with
  | some v => if v < 2 ^ w then some v else none
  | none => none

/-- Modelled from the spec: the `FromStr` impl for `PowerStatus` lives in
`src/fields.rs`, which is missing from the sources; §4.3 specifies an exact,
case-sensitive match of "on"/"off". -/
def parsePowerStatus (s : String) : Except YeeError PowerStatus :=
  if s = "on" then .ok .on
  else if s = "off" then .ok .off
  else .error (.parseFieldError "power")

/-- Modelled from the spec: the `FromStr` impl for `ColorMode` lives in
`src/fields.rs`, which is missing from the sources; §4.3 specifies a small
closed numeric code mapping with the observed value `2 → ColorTemperature`,
completed here as `1 → Color`, `2 → ColorTemperature`, `3 → Hsv`. -/
def parseColorMode (s : String) : Except YeeError ColorMode :=
  if s = "1" then .ok .color
  else if s = "2" then .ok .colorTemperature
  else if s = "3" then .ok .hsv
  else .error (.parseFieldError "color_mode")

/-- Modelled from the spec: the `FromStr` impl for `Rgb` lives in
`src/fields.rs`, which is missing from the sources; §4.3 specifies decoding a
single decimal integer `v`, range-checked to 24 bits, into
`red = (v >> 16) & 0xFF`, `green = (v >> 8) & 0xFF`, `blue = v & 0xFF`. -/
def parseRgb (s : String) : Except YeeError Rgb :=
  match parseDecimal s with
  | some v =>
    if v < 2 ^ 24 then
      .ok ⟨(v >>> 16) &&& 255, (v >>> 8) &&& 255, v &&& 255⟩
    else .error (.parseFieldError "rgb")
  | none => .error (.parseFieldError "rgb")

/-- String arm of the `get_field!` macro: look the field up, fail with
`FieldNotFound` if absent. -/
def getStr (m : HeaderMap) (f : String) : Except YeeError String :=
  match hmGet m f with
  | some s => .ok s
  | none => .error (.fieldNotFound f)

/-- Primitive arm of the `get_field!` macro: look the field up, then parse it
as an unsigned integer of width `w`; a parse failure is `ParseFieldError`. -/
def getUInt (w : Nat) (m : HeaderMap) (f : String) : Except YeeError Nat :=
  match hmGet m f with
  | some s =>
    match parseUIntWidth w s with
    | some v => .ok v
    | none => .error (.parseFieldError f)
  | none => .error (.fieldNotFound f)

/-- Custom-type arm of the `get_field!` macro: look the field up, then run
the custom `FromStr` parser, propagating its error unchanged. -/
def getCustom {α : Type} (p : String → Except YeeError α) (m : HeaderMap)
    (f : String) : Except YeeError α :=
  match hmGet m f with
  | some s => p s
  | none => .error (.fieldNotFound f)

/-- `str::split_whitespace` (after the redundant `trim()` of the source):
whitespace-separated tokens, empty tokens skipped.  The accumulator carries
the current token reversed. -/
def wordsAux : List Char → List Char → List String
  | [], [] => []
  | [], cur => [String.mk cur.reverse]
  | c :: rest, cur =>
    if c.isWhitespace then
      match cur with
      | [] => wordsAux rest []
      | _ => String.mk cur.reverse :: wordsAux rest []
    else wordsAux rest (c :: cur)

/-- The `support` field processing of `Light::from_fields`:
`trim().split_whitespace()` collected into a set, embedded as the token list
in order of appearance. -/
def supportTokens (s : String) : List String :=
  wordsAux s.data []

/-- `Light::from_fields` (`src/light.rs`, lines 66-84): extract and validate
the twelve required fields in the source's order, fail-fast on the first
error, and never produce a partial `Light`. -/
def Light.from_fields (fields : HeaderMap) (location : SocketAddrV4) :
    Except YeeError Light := do
  let id ← getStr fields "id"
  let model ← getStr fields "model"
  let fw_ver ← getUInt 8 fields "fw_ver"
  let power ← getCustom parsePowerStatus fields "power"
  let support := supportTokens (← getStr fields "support")
  let bright ← getUInt 8 fields "bright"
  let color_mode ← getCustom parseColorMode fields "color_mode"
  let ct ← getUInt 16 fields "ct"
  let rgb ← getCustom parseRgb fields "rgb"
  let hue ← getUInt 16 fields "hue"
  let sat ← getUInt 8 fields "sat"
  let name ← getStr fields "name"
  return { location, id, model, fw_ver, support, power, bright, color_mode,
           ct, rgb, hue, sat, name, connection := none }

/-! ## Response parsing

`get_response` hands the cleaned datagram to `httparse::Response::parse`
with a 17-slot header array and calls `.unwrap()` on the result.  The crate
is embedded at the character level: an HTTP/1.x status line followed by
`Name: value` lines.  `Ok` covers both a complete parse and a partial one —
in the partial case the response holds the headers completed so far, which
is what the sequel consumes — while malformed input is an `Err`, on which
the source's `unwrap` panics. -/

/-- Errors of `httparse::Error` reachable from response parsing. -/
inductive HttpError where
  | badVersion
  | badStatus
  | badNewline
  | badHeaderName
  | badHeaderValue
  | tooManyHeaders
deriving DecidableEq

/-- Bytes `httparse` accepts in a header name: the HTTP token characters. -/
def isTokenChar (c : Char) : Bool :=
  c.isAlphanum || c == '!' || c == '#' || c == '$' || c == '%' || c == '&' ||
  c == Char.ofNat 39 || c == '*' || c == '+' || c == '-' || c == '.' ||
  c == '^' || c == '_' || c == Char.ofNat 96 || c == '|' || c == '~'

/-- Bytes `httparse` accepts in a header value: horizontal tab and everything
from 0x20 upward except DEL. -/
def isValueChar (c : Char) : Bool :=
  c == '\t' || (32 ≤ c.toNat && c.toNat ≠ 127)

/-- Drop the optional trailing whitespace `httparse` excludes from a header
value. -/
def trimValueEnd (cs : List Char) : List Char :=
  (cs.reverse.dropWhile (fun c => c == ' ' || c == '\t')).reverse

/-- Parse one `Name: value` header line starting at a token character.
`ok none` is a partial parse (input ended mid-header, the header is
dropped); `ok (some (h, rest))` yields the header and the unconsumed
suffix. -/
def parseOneHeader (cs : List Char) :
    Except HttpError (Option ((String × String) × List Char)) :=
  match cs.span isTokenChar with
  | (nameCs, r1) =>
    match r1 with
    | [] => .ok none
    | ':' :: r2 =>
      let r3 := r2.dropWhile (fun c => c == ' ' || c == '\t')
      match r3.span isValueChar with
      | (valCs, r4) =>
        match r4 with
        | [] => .ok none
        | '\r' :: r5 =>
          match r5 with
          | [] => .ok none
          | '\n' :: r6 =>
            .ok (some ((String.mk nameCs, String.mk (trimValueEnd valCs)), r6))
          | _ => .error .badHeaderValue
        | '\n' :: r6 =>
          .ok (some ((String.mk nameCs, String.mk (trimValueEnd valCs)), r6))
        | _ => .error .badHeaderValue
    | _ => .error .badHeaderName

/-- The header section loop of `httparse`, with the 17-header capacity of
`get_response`'s array.  A line that is neither the section terminator nor a
valid header start is rejected before capacity is consulted, matching the
crate's order of checks.  The fuel argument only drives the recursion; every
call site supplies more fuel than there are input characters, and each
iteration consumes at least one character, so the fuel-exhaustion branch is
unreachable. -/
def parseHeadersLoop : Nat → List (String × String) → List Char →
    Except HttpError (List (String × String))
  | 0, acc, _ => .ok acc
  | fuel + 1, acc, cs =>
    match cs with
    | [] => .ok acc
    | '\r' :: rest =>
      match rest with
      | [] => .ok acc
      | '\n' :: _ => .ok acc
      | _ => .error .badNewline
    | '\n' :: _ => .ok acc
    | c :: _ =>
      if ¬ isTokenChar c then .error .badHeaderName
      else if acc.length ≥ 17 then .error .tooManyHeaders
      else
        match parseOneHeader cs with
        | .error e => .error e
        | .ok none => .ok acc
        | .ok (some (h, rest)) => parseHeadersLoop fuel (acc ++ [h]) rest

/-- The reason-phrase and line terminator after the status code; `ok none`
is a partial parse, `ok (some rest)` hands the remaining characters to the
header section. -/
def parseReason (cs : List Char) : Except HttpError (Option (List Char)) :=
  match cs with
  | [] => .ok none
  | ' ' :: r1 =>
    match r1.dropWhile (fun c => !(c == '\r' || c == '\n')) with
    | [] => .ok none
    | '\r' :: r3 =>
      match r3 with
      | [] => .ok none
      | '\n' :: r4 => .ok (some r4)
      | _ => .error .badStatus
    | '\n' :: r4 => .ok (some r4)
    | _ => .error .badStatus
  | '\r' :: r3 =>
    match r3 with
    | [] => .ok none
    | '\n' :: r4 => .ok (some r4)
    | _ => .error .badStatus
  | '\n' :: r4 => .ok (some r4)
  | _ => .error .badStatus

/-- The three-digit status code after the version's space. -/
def parseCode (cs : List Char) : Except HttpError (Option (List Char)) :=
  match cs with
  | [] => .ok none
  | d1 :: r1 =>
    if ¬ d1.isDigit then .error .badStatus
    else
      match r1 with
      | [] => .ok none
      | d2 :: r2 =>
        if ¬ d2.isDigit then .error .badStatus
        else
          match r2 with
          | [] => .ok none
          | d3 :: r3 =>
            if ¬ d3.isDigit then .error .badStatus
            else parseReason r3

/-- The status line: the literal `HTTP/1.` followed by `0` or `1`, a space,
and the status code.  `ok none` is a partial parse of the status line, in
which case no header was recorded. -/
def parseStatusLine (cs : List Char) : Except HttpError (Option (List Char)) :=
  match cs with
  | 'H' :: 'T' :: 'T' :: 'P' :: '/' :: '1' :: '.' :: rest =>
    match rest with
    | [] => .ok none
    | v :: r1 =>
      if ¬ (v == '0' || v == '1') then .error .badVersion
      else
        match r1 with
        | [] => .ok none
        | ' ' :: r2 => parseCode r2
        | _ => .error .badVersion
  | [] => .ok none
  | ['H'] => .ok none
  | ['H', 'T'] => .ok none
  | ['H', 'T', 'T'] => .ok none
  | ['H', 'T', 'T', 'P'] => .ok none
  | ['H', 'T', 'T', 'P', '/'] => .ok none
  | ['H', 'T', 'T', 'P', '/', '1'] => .ok none
  | _ => .error .badVersion

/-- Strip matching characters from both ends of a character list, as
`str::trim_matches` and `str::trim` do. -/
def trimEnds (p : Char → Bool) (cs : List Char) : List Char :=
  ((cs.dropWhile p).reverse.dropWhile p).reverse

/-- Buffer cleaning of `get_response` (lines 52-63 of `src/lib.rs`): the
datagram lands in a zero-filled 1024-byte buffer (so it is truncated to 1024
and padded with NUL), is decoded to text, stripped of NUL characters at both
ends (`trim_matches(char::from(0))`) and finally trimmed of surrounding
whitespace (`trim()`). -/
def cleanDatagram (payload : String) : List Char :=
  trimEnds (fun c => c.isWhitespace)
    (trimEnds (fun c => c == Char.ofNat 0) (payload.data.take 1024))

/-- `httparse::Response::parse` on the cleaned datagram: status line then
headers; a partial status line leaves no parsed headers. -/
def parseResponse (payload : String) : Except HttpError (List (String × String)) :=
  let cs := cleanDatagram payload
  match parseStatusLine cs with
  | .error e => .error e
  | .ok none => .ok []
  | .ok (some rest) => parseHeadersLoop (rest.length + 1) [] rest

/-! ## The discovery session

`get_response` sends the fixed search message once, then loops on
non-blocking receives until the timeout elapses.  The environment is
embedded as the list of loop iterations that would run before the deadline:
each carries the monotonic-clock reading checked by the loop condition and
the outcome of `recv_from` (`none` models a receive error such as
`WouldBlock`, swallowed by the `if let`).  An exhausted list means the next
clock reading reaches the timeout.  Panics (`unwrap` on the send and on the
parse, the IPv6 `panic!` arm) end the session abnormally, which the
`Outcome` type records. -/

/-- The fixed search datagram (`SEARCH_MSG` in `src/lib.rs`). -/
def SEARCH_MSG : String :=
  "M-SEARCH * HTTP/1.1\r\nHOST: 239.255.255.250:1982\r\nMAN: \"ssdp:discover\"\r\nST: wifi_bulb"

/-- Source address of a received datagram (`std::net::SocketAddr`). -/
inductive SockAddr where
  | v4 (addr : SocketAddrV4)
  | v6 (shown : String)
deriving DecidableEq

/-- One received datagram: its payload and its source address. -/
structure Datagram where
  payload : String
  origin : SockAddr
deriving DecidableEq

/-- One iteration of the receive loop: the elapsed-time reading checked by
`now.elapsed() < timeout` and the result of this iteration's `recv_from`. -/
structure RecvStep where
  elapsed : Nat
  recv : Option Datagram
deriving DecidableEq

/-- Normal return or panic of the session. -/
inductive Outcome (α : Type) where
  | ok (val : α)
  | panic (msg : String)
deriving DecidableEq

/-- The dedupe step (lines 79-81 of `src/lib.rs`): membership in the
`HashSet<Light>` is decided by `Light`'s `id`-only equality, and an already
present identity leaves the set unchanged. -/
def offerLight (lights : List Light) (l : Light) : List Light :=
  if lights.any (fun x => lightEq x l) then lights else lights ++ [l]

/-- Processing of one received datagram (lines 57-87 of `src/lib.rs`):
decode and clean the buffer, `parse(..).unwrap()` (panics on a parse
error), build the header map, panic on an IPv6 source, then decode the
fields — a decode error is silently swallowed, a decoded light is offered
to the set. -/
def processDatagram (lights : List Light) (d : Datagram) : Outcome (List Light) :=
  match parseResponse d.payload with
  | .error _ => .panic "called Result unwrap on an Err value: response parse failed"
  | .ok hs =>
    let fields := collectHeaders hs
    match d.origin with
    | .v6 shown => .panic ("Address of light should not be IPv6: " ++ shown)
    | .v4 origin =>
      match Light.from_fields fields origin with
      | .ok newLight => .ok (offerLight lights newLight)
      | .error _ => .ok lights

/-- The receive loop of `get_response`: returns the number of receive
attempts made together with the outcome. -/
def runLoop (timeout : Nat) : List Light → List RecvStep →
    Nat × Outcome (List Light)
  | lights, [] => (0, .ok lights)
  | lights, step :: rest =>
    if step.elapsed < timeout then
      match step.recv with
      | none =>
        match runLoop timeout lights rest with
        | (n, r) => (n + 1, r)
      | some d =>
        match processDatagram lights d with
        | .ok lights2 =>
          match runLoop timeout lights2 rest with
          | (n, r) => (n + 1, r)
        | .panic m => (1, .panic m)
    else (0, .ok lights)

/-- Observable result of one `get_response` call: the datagrams sent, the
number of receive attempts, and the returned light list or the panic. -/
structure SessionResult where
  sent : List String
  recvAttempts : Nat
  outcome : Outcome (List Light)
deriving DecidableEq

/-- `YeeClient::get_response` (lines 44-91 of `src/lib.rs`): send the search
message once — `send_to(..).unwrap()` panics when the send fails, before any
receive — then run the receive loop on an empty set and return the collected
lights.  `sendOk` models whether the single outbound send succeeds. -/
def get_response (sendOk : Bool) (timeout : Nat) (steps : List RecvStep) :
    SessionResult :=
  if sendOk then
    match runLoop timeout [] steps with
    | (n, r) => { sent := [SEARCH_MSG], recvAttempts := n, outcome := r }
  else
    { sent := [SEARCH_MSG], recvAttempts := 0,
      outcome := .panic "called Result unwrap on an Err value: send failed" }

/-- Successful decode of a datagram, as `get_response` would perform it:
parse, header map, IPv4 origin, `from_fields`.  `none` when any stage fails
(or would panic). -/
def decodeDatagram (d : Datagram) : Option Light :=
  match parseResponse d.payload with
  | .error _ => none
  | .ok hs =>
    match d.origin with
    | .v6 _ => none
    | .v4 origin => (Light.from_fields (collectHeaders hs) origin).toOption

/-- The lights successfully decoded during a session, in arrival order:
one per received datagram of the iterations that pass the timeout check. -/
def decodedLights (timeout : Nat) (steps : List RecvStep) : List Light :=
  (steps.takeWhile (fun s => s.elapsed < timeout)).filterMap
    (fun s => s.recv.bind decodeDatagram)

/-! ## Derived notions used by the statements -/

/-- The twelve required fields, in the extraction order of
`Light::from_fields`. -/
def requiredFields : List String :=
  ["id", "model", "fw_ver", "power", "support", "bright", "color_mode",
   "ct", "rgb", "hue", "sat", "name"]

/-- The extraction attempt `Light::from_fields` makes for a single required
field, with the value discarded: the string fields use the string arm of
`get_field!`, the integer fields the primitive arm with their width, and
`power`/`color_mode`/`rgb` their custom parsers. -/
def fieldCheck (m : HeaderMap) (f : String) : Except YeeError Unit :=
  if f = "id" then (getStr m "id").map fun _ => ()
  else if f = "model" then (getStr m "model").map fun _ => ()
  else if f = "fw_ver" then (getUInt 8 m "fw_ver").map fun _ => ()
  else if f = "power" then (getCustom parsePowerStatus m "power").map fun _ => ()
  else if f = "support" then (getStr m "support").map fun _ => ()
  else if f = "bright" then (getUInt 8 m "bright").map fun _ => ()
  else if f = "color_mode" then (getCustom parseColorMode m "color_mode").map fun _ => ()
  else if f = "ct" then (getUInt 16 m "ct").map fun _ => ()
  else if f = "rgb" then (getCustom parseRgb m "rgb").map fun _ => ()
  else if f = "hue" then (getUInt 16 m "hue").map fun _ => ()
  else if f = "sat" then (getUInt 8 m "sat").map fun _ => ()
  else if f = "name" then (getStr m "name").map fun _ => ()
  else .ok ()

/-- First-match-wins disjunction on `Option`, used to state how later
header-map inserts shadow earlier entries. -/
def optOr {α : Type} : Option α → Option α → Option α
  | some a, _ => some a
  | none, b => b

/-- Value of the last header line with the given name, if any: an
occurrence later in the list takes precedence over the head. -/
def lastHeaderValue : List (String × String) → String → Option String
  | [], _ => none
  | p :: hs, n =>
    optOr (lastHeaderValue hs n) (if p.1 == n then some p.2 else none)

/-- The keys of a header map. -/
def hmKeys (m : HeaderMap) : List String :=
  m.map Prod.fst

/-- Whether some light in the list carries the given identity. -/
def idMem (lights : List Light) (i : String) : Prop :=
  ∃ x ∈ lights, x.id = i

/-- Concrete light used to instantiate the identity theorems: same `id` as
`c3LightB`, every other field different. -/
def c3LightA : Light :=
  { location := ⟨(1, 2, 3, 4), 5⟩, id := "0x1234", model := "floor", fw_ver := 1,
    support := [], power := .on, bright := 1, color_mode := .color,
    ct := 0, rgb := ⟨0, 0, 0⟩, hue := 0, sat := 0, name := "n1", connection := none }

/-- Concrete light used to instantiate the identity theorems: same `id` as
`c3LightA`, every other field different. -/
def c3LightB : Light :=
  { location := ⟨(9, 9, 9, 9), 9⟩, id := "0x1234", model := "lamp", fw_ver := 2,
    support := ["a"], power := .off, bright := 2, color_mode := .hsv,
    ct := 7, rgb := ⟨1, 1, 1⟩, hue := 3, sat := 4, name := "n2", connection := none }

/-- A well-formed advertisement datagram: all twelve required fields with
valid values (the sacrificial trailing `z` header keeps the `name` header
line complete after the buffer cleaning strips the final newline). -/
def wellFormedPayload : String :=
  "HTTP/1.1 200 OK\r\nid: 1\r\nmodel: m\r\nfw_ver: 1\r\npower: on\r\nsupport: a\r\nbright: 1\r\ncolor_mode: 2\r\nct: 0\r\nrgb: 0\r\nhue: 0\r\nsat: 0\r\nname: n\r\nz: z"

/-- The light `wellFormedPayload` decodes to when received from
`192.168.1.2:1234`. -/
def wellFormedLight : Light :=
  { location := ⟨(192, 168, 1, 2), 1234⟩, id := "1", model := "m", fw_ver := 1,
    support := ["a"], power := .on, bright := 1,
    color_mode := .colorTemperature, ct := 0, rgb := ⟨0, 0, 0⟩, hue := 0,
    sat := 0, name := "n", connection := none }

/-- A second advertisement for the same device identity as
`wellFormedPayload` (same `id`, different `model`). -/
def duplicateIdPayload : String :=
  "HTTP/1.1 200 OK\r\nid: 1\r\nmodel: q\r\nfw_ver: 1\r\npower: on\r\nsupport: a\r\nbright: 1\r\ncolor_mode: 2\r\nct: 0\r\nrgb: 0\r\nhue: 0\r\nsat: 0\r\nname: n\r\nz: z"

/-- An advertisement for a distinct device identity (`id` 2). -/
def otherIdPayload : String :=
  "HTTP/1.1 200 OK\r\nid: 2\r\nmodel: m\r\nfw_ver: 1\r\npower: on\r\nsupport: a\r\nbright: 1\r\ncolor_mode: 2\r\nct: 0\r\nrgb: 0\r\nhue: 0\r\nsat: 0\r\nname: n\r\nz: z"

/-- The light `otherIdPayload` decodes to when received from
`192.168.1.2:1234`. -/
def otherIdLight : Light :=
  { location := ⟨(192, 168, 1, 2), 1234⟩, id := "2", model := "m", fw_ver := 1,
    support := ["a"], power := .on, bright := 1,
    color_mode := .colorTemperature, ct := 0, rgb := ⟨0, 0, 0⟩, hue := 0,
    sat := 0, name := "n", connection := none }

/-- Header mapping whose only missing required field is `name` but whose
`fw_ver` value is not a number: the decode fails on `fw_ver` first. -/
def c4CexMap : HeaderMap :=
  [("id", "a"), ("model", "m"), ("fw_ver", "xx"), ("power", "on"),
   ("support", ""), ("bright", "1"), ("color_mode", "2"), ("ct", "0"),
   ("rgb", "0"), ("hue", "0"), ("sat", "0")]

/-- The well-formed header mapping of the repository's test fixture
(`get_map` in `src/light.rs`). -/
def fixtureMap : HeaderMap :=
  [("id", "0x1234"), ("model", "floor"), ("fw_ver", "40"), ("power", "on"),
   ("bright", "34"), ("color_mode", "2"), ("ct", "0"), ("rgb", "657930"),
   ("hue", "314"), ("sat", "12"), ("name", "room_light"),
   ("support", "get_power set_power get_rgb set_rgb")]

/-- The light the fixture mapping decodes to. -/
def fixtureLight : Light :=
  { location := ⟨(192, 168, 0, 42), 1234⟩, id := "0x1234", model := "floor",
    fw_ver := 40, support := ["get_power", "set_power", "get_rgb", "set_rgb"],
    power := .on, bright := 34, color_mode := .colorTemperature, ct := 0,
    rgb := ⟨10, 10, 10⟩, hue := 314, sat := 12, name := "room_light",
    connection := none }

/-! ## Helper lemmas -/

theorem except_map_ok_elim {α : Type} {e : Except YeeError α}
    (h : e.map (fun _ => ()) = .ok ()) : ∃ v, e = .ok v := by
  cases e with
  | ok v => exact ⟨v, rfl⟩
  | error er => simp [Except.map] at h

theorem getStr_congr {m1 m2 : HeaderMap} {f : String}
    (h : hmGet m1 f = hmGet m2 f) : getStr m1 f = getStr m2 f := by
  simp only [getStr, h]

theorem getUInt_congr {w : Nat} {m1 m2 : HeaderMap} {f : String}
    (h : hmGet m1 f = hmGet m2 f) : getUInt w m1 f = getUInt w m2 f := by
  simp only [getUInt, h]

theorem getCustom_congr {α : Type} {p : String → Except YeeError α}
    {m1 m2 : HeaderMap} {f : String}
    (h : hmGet m1 f = hmGet m2 f) : getCustom p m1 f = getCustom p m2 f := by
  simp only [getCustom, h]

theorem yeeBind_ok {α β : Type} (a : α) (k : α → Except YeeError β) :
    (Except.ok a >>= k) = k a := rfl

theorem yeeBind_error {α β : Type} (e : YeeError) (k : α → Except YeeError β) :
    ((Except.error e : Except YeeError α) >>= k) = Except.error e := rfl

/-! ## Claim theorems -/

/-- C10: for a timeout of zero, or any timeout at or below the elapsed-time
reading of the first loop-condition check, `get_response` still sends the
search datagram exactly once and returns an empty collection without
attempting any receive. -/
theorem c10_zero_timeout (timeout : Nat) (steps : List RecvStep)
    (h : ∀ s, steps.head? = some s → timeout ≤ s.elapsed) :
    get_response true timeout steps =
      { sent := [SEARCH_MSG], recvAttempts := 0, outcome := .ok [] } := by
  cases steps with
  | nil => rfl
  | cons s rest =>
    have hs : ¬ s.elapsed < timeout := Nat.not_lt.mpr (h s rfl)
    simp [get_response, runLoop, hs]

/-- C10 witness: a session whose first clock reading already reaches a zero
timeout sends once, receives nothing, and returns no lights. -/
theorem c10_zero_timeout_witness :
    get_response true 0 [⟨3, none⟩] =
      { sent := [SEARCH_MSG], recvAttempts := 0, outcome := .ok [] } :=
  c10_zero_timeout 0 [⟨3, none⟩] (fun s _ => Nat.zero_le s.elapsed)

/-- C2 counterexample: when the single outbound send fails, the session does
not report any error result to the caller — `get_response` panics (the
`unwrap` on `send_to`), so the call ends abnormally with no returned
value. -/
theorem c2_send_failure_no_error_result :
    (get_response false 5 [⟨0, none⟩]).outcome =
      Outcome.panic "called Result unwrap on an Err value: send failed" := rfl

/-- C2 amended: if sending the single outbound search datagram fails,
`get_response` fails fatally for that call by panicking (the `unwrap` on
`send_to`), aborting the call before any receive loop runs; no error value
is reported, since the return type carries only the device list. -/
theorem c2_send_failure_panics (timeout : Nat) (steps : List RecvStep) :
    get_response false timeout steps =
      { sent := [SEARCH_MSG], recvAttempts := 0,
        outcome := .panic "called Result unwrap on an Err value: send failed" } := rfl

/-- C3: two lights compare equal exactly when their `id` strings are equal,
regardless of every other field; the data written to the hasher depends only
on `id`; and decoding the same well-formed header mapping twice yields two
independently constructed values that compare equal. -/
theorem c3_identity_by_id :
    (∀ a b : Light, lightEq a b = true ↔ a.id = b.id) ∧
    (∀ a b : Light, a.id = b.id → lightHashData a = lightHashData b) ∧
    (∀ (m : HeaderMap) (loc : SocketAddrV4) (l1 l2 : Light),
      Light.from_fields m loc = .ok l1 → Light.from_fields m loc = .ok l2 →
      lightEq l1 l2 = true) := by
  refine ⟨fun a b => ?_, fun a b h => ?_, fun m loc l1 l2 h1 h2 => ?_⟩
  · simp [lightEq]
  · simp [lightHashData, h]
  · rw [h1] at h2
    cases Except.ok.inj h2
    simp [lightEq]

/-- C3 witness: two concrete lights sharing only their `id` compare equal
and hash identically, and the fixture mapping decodes twice to values that
compare equal. -/
theorem c3_identity_by_id_witness :
    lightEq c3LightA c3LightB = true ∧
    lightHashData c3LightA = lightHashData c3LightB ∧
    lightEq fixtureLight fixtureLight = true := by
  refine ⟨(c3_identity_by_id.1 c3LightA c3LightB).mpr (by decide),
          c3_identity_by_id.2.1 c3LightA c3LightB (by decide),
          c3_identity_by_id.2.2 fixtureMap ⟨(192, 168, 0, 42), 1234⟩
            fixtureLight fixtureLight (by decide) (by decide)⟩

/-- C7: every `rgb` header value that strictly parses as a decimal integer
`v` representable in 24 bits decodes to the triple
`red = (v >>> 16) &&& 255`, `green = (v >>> 8) &&& 255`,
`blue = v &&& 255`; in particular "657930" decodes to `(10, 10, 10)`. -/
theorem c7_rgb_unpack :
    (∀ (s : String) (v : Nat), parseDecimal s = some v → v < 2 ^ 24 →
      parseRgb s = .ok ⟨(v >>> 16) &&& 255, (v >>> 8) &&& 255, v &&& 255⟩) ∧
    parseRgb "657930" = .ok ⟨10, 10, 10⟩ := by
  constructor
  · intro s v h1 h2
    simp only [parseRgb, h1]
    rw [if_pos h2]
  · decide

/-- C7 witness: the general unpacking law applied at the observed input
"657930" yields the triple `(10, 10, 10)`. -/
theorem c7_rgb_unpack_witness :
    parseRgb "657930" = Except.ok ⟨10, 10, 10⟩ :=
  (c7_rgb_unpack.1 "657930" 657930 (by decide) (by decide)).trans (by decide)

/-- C9: the result of `Light::from_fields` depends only on the twelve
consumed field names and the supplied source address — two header maps that
agree on the required fields decode identically, whatever entries they carry
under other keys. -/
theorem c9_irrelevant_keys_noninterference (m1 m2 : HeaderMap)
    (loc : SocketAddrV4)
    (h : ∀ f ∈ requiredFields, hmGet m1 f = hmGet m2 f) :
    Light.from_fields m1 loc = Light.from_fields m2 loc := by
  have e1 := getStr_congr (h "id" (by simp [requiredFields]))
  have e2 := getStr_congr (h "model" (by simp [requiredFields]))
  have e3 := getUInt_congr (w := 8) (h "fw_ver" (by simp [requiredFields]))
  have e4 := getCustom_congr (p := parsePowerStatus) (h "power" (by simp [requiredFields]))
  have e5 := getStr_congr (h "support" (by simp [requiredFields]))
  have e6 := getUInt_congr (w := 8) (h "bright" (by simp [requiredFields]))
  have e7 := getCustom_congr (p := parseColorMode) (h "color_mode" (by simp [requiredFields]))
  have e8 := getUInt_congr (w := 16) (h "ct" (by simp [requiredFields]))
  have e9 := getCustom_congr (p := parseRgb) (h "rgb" (by simp [requiredFields]))
  have e10 := getUInt_congr (w := 16) (h "hue" (by simp [requiredFields]))
  have e11 := getUInt_congr (w := 8) (h "sat" (by simp [requiredFields]))
  have e12 := getStr_congr (h "name" (by simp [requiredFields]))
  simp only [Light.from_fields, e1, e2, e3, e4, e5, e6, e7, e8, e9, e10, e11, e12]

/-- C4 counterexample: in `c4CexMap` the only absent required field is
`name`, yet `Light::from_fields` fails with `ParseFieldError` for `fw_ver`
(whose value "xx" is not a number) — not with `FieldMissing` naming the
first missing field. -/
theorem c4_first_missing_field_cex :
    requiredFields.filter (fun f => (hmGet c4CexMap f).isNone) = ["name"] ∧
    Light.from_fields c4CexMap ⟨(192, 168, 0, 42), 1234⟩ =
      .error (.parseFieldError "fw_ver") ∧
    Light.from_fields c4CexMap ⟨(192, 168, 0, 42), 1234⟩ ≠
      .error (.fieldNotFound "name") := by
  refine ⟨by decide, by decide, by decide⟩

/-- C4 amended: for every header mapping missing at least one required
field, if every required field preceding the first missing one in the fixed
extraction order is present and parses successfully, then
`Light::from_fields` fails with `FieldMissing` naming that first missing
field, and no light value is produced. -/
theorem c4_missing_field_amended (m : HeaderMap) (loc : SocketAddrV4)
    (f : String) (hf : f ∈ requiredFields) (hmiss : hmGet m f = none)
    (hprev : ∀ g ∈ requiredFields.takeWhile (fun x => x != f),
      fieldCheck m g = .ok ()) :
    Light.from_fields m loc = .error (.fieldNotFound f) := by
  simp only [requiredFields, List.mem_cons, List.not_mem_nil, or_false] at hf
  rcases hf with rfl | rfl | rfl | rfl | rfl | rfl | rfl | rfl | rfl | rfl | rfl | rfl
  · have efail : getStr m "id" = .error (.fieldNotFound "id") := by
      simp [getStr, hmiss]
    simp only [Light.from_fields, efail, yeeBind_error]
  · obtain ⟨v1, e1⟩ := except_map_ok_elim
      (by simpa [fieldCheck] using hprev "id" (by decide))
    have efail : getStr m "model" = .error (.fieldNotFound "model") := by
      simp [getStr, hmiss]
    simp only [Light.from_fields, e1, efail, yeeBind_ok, yeeBind_error]
  · obtain ⟨v1, e1⟩ := except_map_ok_elim
      (by simpa [fieldCheck] using hprev "id" (by decide))
    obtain ⟨v2, e2⟩ := except_map_ok_elim
      (by simpa [fieldCheck] using hprev "model" (by decide))
    have efail : getUInt 8 m "fw_ver" = .error (.fieldNotFound "fw_ver") := by
      simp [getUInt, hmiss]
    simp only [Light.from_fields, e1, e2, efail, yeeBind_ok, yeeBind_error]
  · obtain ⟨v1, e1⟩ := except_map_ok_elim
      (by simpa [fieldCheck] using hprev "id" (by decide))
    obtain ⟨v2, e2⟩ := except_map_ok_elim
      (by simpa [fieldCheck] using hprev "model" (by decide))
    obtain ⟨v3, e3⟩ := except_map_ok_elim
      (by simpa [fieldCheck] using hprev "fw_ver" (by decide))
    have efail : getCustom parsePowerStatus m "power" =
        .error (.fieldNotFound "power") := by
      simp [getCustom, hmiss]
    simp only [Light.from_fields, e1, e2, e3, efail, yeeBind_ok, yeeBind_error]
  · obtain ⟨v1, e1⟩ := except_map_ok_elim
      (by simpa [fieldCheck] using hprev "id" (by decide))
    obtain ⟨v2, e2⟩ := except_map_ok_elim
      (by simpa [fieldCheck] using hprev "model" (by decide))
    obtain ⟨v3, e3⟩ := except_map_ok_elim
      (by simpa [fieldCheck] using hprev "fw_ver" (by decide))
    obtain ⟨v4, e4⟩ := except_map_ok_elim
      (by simpa [fieldCheck] using hprev "power" (by decide))
    have efail : getStr m "support" = .error (.fieldNotFound "support") := by
      simp [getStr, hmiss]
    simp only [Light.from_fields, e1, e2, e3, e4, efail, yeeBind_ok, yeeBind_error]
  · obtain ⟨v1, e1⟩ := except_map_ok_elim
      (by simpa [fieldCheck] using hprev "id" (by decide))
    obtain ⟨v2, e2⟩ := except_map_ok_elim
      (by simpa [fieldCheck] using hprev "model" (by decide))
    obtain ⟨v3, e3⟩ := except_map_ok_elim
      (by simpa [fieldCheck] using hprev "fw_ver" (by decide))
    obtain ⟨v4, e4⟩ := except_map_ok_elim
      (by simpa [fieldCheck] using hprev "power" (by decide))
    obtain ⟨v5, e5⟩ := except_map_ok_elim
      (by simpa [fieldCheck] using hprev "support" (by decide))
    have efail : getUInt 8 m "bright" = .error (.fieldNotFound "bright") := by
      simp [getUInt, hmiss]
    simp only [Light.from_fields, e1, e2, e3, e4, e5, efail, yeeBind_ok,
      yeeBind_error]
  · obtain ⟨v1, e1⟩ := except_map_ok_elim
      (by simpa [fieldCheck] using hprev "id" (by decide))
    obtain ⟨v2, e2⟩ := except_map_ok_elim
      (by simpa [fieldCheck] using hprev "model" (by decide))
    obtain ⟨v3, e3⟩ := except_map_ok_elim
      (by simpa [fieldCheck] using hprev "fw_ver" (by decide))
    obtain ⟨v4, e4⟩ := except_map_ok_elim
      (by simpa [fieldCheck] using hprev "power" (by decide))
    obtain ⟨v5, e5⟩ := except_map_ok_elim
      (by simpa [fieldCheck] using hprev "support" (by decide))
    obtain ⟨v6, e6⟩ := except_map_ok_elim
      (by simpa [fieldCheck] using hprev "bright" (by decide))
    have efail : getCustom parseColorMode m "color_mode" =
        .error (.fieldNotFound "color_mode") := by
      simp [getCustom, hmiss]
    simp only [Light.from_fields, e1, e2, e3, e4, e5, e6, efail, yeeBind_ok,
      yeeBind_error]
  · obtain ⟨v1, e1⟩ := except_map_ok_elim
      (by simpa [fieldCheck] using hprev "id" (by decide))
    obtain ⟨v2, e2⟩ := except_map_ok_elim
      (by simpa [fieldCheck] using hprev "model" (by decide))
    obtain ⟨v3, e3⟩ := except_map_ok_elim
      (by simpa [fieldCheck] using hprev "fw_ver" (by decide))
    obtain ⟨v4, e4⟩ := except_map_ok_elim
      (by simpa [fieldCheck] using hprev "power" (by decide))
    obtain ⟨v5, e5⟩ := except_map_ok_elim
      (by simpa [fieldCheck] using hprev "support" (by decide))
    obtain ⟨v6, e6⟩ := except_map_ok_elim
      (by simpa [fieldCheck] using hprev "bright" (by decide))
    obtain ⟨v7, e7⟩ := except_map_ok_elim
      (by simpa [fieldCheck] using hprev "color_mode" (by decide))
    have efail : getUInt 16 m "ct" = .error (.fieldNotFound "ct") := by
      simp [getUInt, hmiss]
    simp only [Light.from_fields, e1, e2, e3, e4, e5, e6, e7, efail,
      yeeBind_ok, yeeBind_error]
  · obtain ⟨v1, e1⟩ := except_map_ok_elim
      (by simpa [fieldCheck] using hprev "id" (by decide))
    obtain ⟨v2, e2⟩ := except_map_ok_elim
      (by simpa [fieldCheck] using hprev "model" (by decide))
    obtain ⟨v3, e3⟩ := except_map_ok_elim
      (by simpa [fieldCheck] using hprev "fw_ver" (by decide))
    obtain ⟨v4, e4⟩ := except_map_ok_elim
      (by simpa [fieldCheck] using hprev "power" (by decide))
    obtain ⟨v5, e5⟩ := except_map_ok_elim
      (by simpa [fieldCheck] using hprev "support" (by decide))
    obtain ⟨v6, e6⟩ := except_map_ok_elim
      (by simpa [fieldCheck] using hprev "bright" (by decide))
    obtain ⟨v7, e7⟩ := except_map_ok_elim
      (by simpa [fieldCheck] using hprev "color_mode" (by decide))
    obtain ⟨v8, e8⟩ := except_map_ok_elim
      (by simpa [fieldCheck] using hprev "ct" (by decide))
    have efail : getCustom parseRgb m "rgb" = .error (.fieldNotFound "rgb") := by
      simp [getCustom, hmiss]
    simp only [Light.from_fields, e1, e2, e3, e4, e5, e6, e7, e8, efail,
      yeeBind_ok, yeeBind_error]
  · obtain ⟨v1, e1⟩ := except_map_ok_elim
      (by simpa [fieldCheck] using hprev "id" (by decide))
    obtain ⟨v2, e2⟩ := except_map_ok_elim
      (by simpa [fieldCheck] using hprev "model" (by decide))
    obtain ⟨v3, e3⟩ := except_map_ok_elim
      (by simpa [fieldCheck] using hprev "fw_ver" (by decide))
    obtain ⟨v4, e4⟩ := except_map_ok_elim
      (by simpa [fieldCheck] using hprev "power" (by decide))
    obtain ⟨v5, e5⟩ := except_map_ok_elim
      (by simpa [fieldCheck] using hprev "support" (by decide))
    obtain ⟨v6, e6⟩ := except_map_ok_elim
      (by simpa [fieldCheck] using hprev "bright" (by decide))
    obtain ⟨v7, e7⟩ := except_map_ok_elim
      (by simpa [fieldCheck] using hprev "color_mode" (by decide))
    obtain ⟨v8, e8⟩ := except_map_ok_elim
      (by simpa [fieldCheck] using hprev "ct" (by decide))
    obtain ⟨v9, e9⟩ := except_map_ok_elim
      (by simpa [fieldCheck] using hprev "rgb" (by decide))
    have efail : getUInt 16 m "hue" = .error (.fieldNotFound "hue") := by
      simp [getUInt, hmiss]
    simp only [Light.from_fields, e1, e2, e3, e4, e5, e6, e7, e8, e9, efail,
      yeeBind_ok, yeeBind_error]
  · obtain ⟨v1, e1⟩ := except_map_ok_elim
      (by simpa [fieldCheck] using hprev "id" (by decide))
    obtain ⟨v2, e2⟩ := except_map_ok_elim
      (by simpa [fieldCheck] using hprev "model" (by decide))
    obtain ⟨v3, e3⟩ := except_map_ok_elim
      (by simpa [fieldCheck] using hprev "fw_ver" (by decide))
    obtain ⟨v4, e4⟩ := except_map_ok_elim
      (by simpa [fieldCheck] using hprev "power" (by decide))
    obtain ⟨v5, e5⟩ := except_map_ok_elim
      (by simpa [fieldCheck] using hprev "support" (by decide))
    obtain ⟨v6, e6⟩ := except_map_ok_elim
      (by simpa [fieldCheck] using hprev "bright" (by decide))
    obtain ⟨v7, e7⟩ := except_map_ok_elim
      (by simpa [fieldCheck] using hprev "color_mode" (by decide))
    obtain ⟨v8, e8⟩ := except_map_ok_elim
      (by simpa [fieldCheck] using hprev "ct" (by decide))
    obtain ⟨v9, e9⟩ := except_map_ok_elim
      (by simpa [fieldCheck] using hprev "rgb" (by decide))
    obtain ⟨v10, e10⟩ := except_map_ok_elim
      (by simpa [fieldCheck] using hprev "hue" (by decide))
    have efail : getUInt 8 m "sat" = .error (.fieldNotFound "sat") := by
      simp [getUInt, hmiss]
    simp only [Light.from_fields, e1, e2, e3, e4, e5, e6, e7, e8, e9, e10,
      efail, yeeBind_ok, yeeBind_error]
  · obtain ⟨v1, e1⟩ := except_map_ok_elim
      (by simpa [fieldCheck] using hprev "id" (by decide))
    obtain ⟨v2, e2⟩ := except_map_ok_elim
      (by simpa [fieldCheck] using hprev "model" (by decide))
    obtain ⟨v3, e3⟩ := except_map_ok_elim
      (by simpa [fieldCheck] using hprev "fw_ver" (by decide))
    obtain ⟨v4, e4⟩ := except_map_ok_elim
      (by simpa [fieldCheck] using hprev "power" (by decide))
    obtain ⟨v5, e5⟩ := except_map_ok_elim
      (by simpa [fieldCheck] using hprev "support" (by decide))
    obtain ⟨v6, e6⟩ := except_map_ok_elim
      (by simpa [fieldCheck] using hprev "bright" (by decide))
    obtain ⟨v7, e7⟩ := except_map_ok_elim
      (by simpa [fieldCheck] using hprev "color_mode" (by decide))
    obtain ⟨v8, e8⟩ := except_map_ok_elim
      (by simpa [fieldCheck] using hprev "ct" (by decide))
    obtain ⟨v9, e9⟩ := except_map_ok_elim
      (by simpa [fieldCheck] using hprev "rgb" (by decide))
    obtain ⟨v10, e10⟩ := except_map_ok_elim
      (by simpa [fieldCheck] using hprev "hue" (by decide))
    obtain ⟨v11, e11⟩ := except_map_ok_elim
      (by simpa [fieldCheck] using hprev "sat" (by decide))
    have efail : getStr m "name" = .error (.fieldNotFound "name") := by
      simp [getStr, hmiss]
    simp only [Light.from_fields, e1, e2, e3, e4, e5, e6, e7, e8, e9, e10,
      e11, efail, yeeBind_ok, yeeBind_error]

/-- C4 amended witness: removing `name` from an otherwise well-formed
mapping makes the decode fail with `FieldMissing` naming `name`. -/
theorem c4_missing_field_amended_witness :
    Light.from_fields
        [("id", "a"), ("model", "m"), ("fw_ver", "1"), ("power", "on"),
         ("support", ""), ("bright", "1"), ("color_mode", "2"), ("ct", "0"),
         ("rgb", "0"), ("hue", "0"), ("sat", "0")] ⟨(192, 168, 0, 42), 1234⟩ =
      .error (.fieldNotFound "name") :=
  c4_missing_field_amended _ _ "name" (by decide) (by decide) (by decide)

/-- C1 evidence: in the source, `res.parse(..).unwrap()` panics on a parse
failure instead of discarding the datagram.  A session that receives one
unparseable datagram followed by a well-formed one panics, losing the light
decodable from the second datagram; the same well-formed datagram on its own
yields that light. -/
theorem c1_parse_failure_aborts_session :
    (get_response true 10
        [⟨0, some ⟨"garbage", .v4 ⟨(192, 168, 1, 2), 1234⟩⟩⟩,
         ⟨1, some ⟨wellFormedPayload, .v4 ⟨(192, 168, 1, 2), 1234⟩⟩⟩]).outcome =
      Outcome.panic "called Result unwrap on an Err value: response parse failed" ∧
    (get_response true 10
        [⟨1, some ⟨wellFormedPayload, .v4 ⟨(192, 168, 1, 2), 1234⟩⟩⟩]).outcome =
      Outcome.ok [wellFormedLight] := by
  refine ⟨by decide, by decide⟩

theorem processDatagram_v6_panic (lights : List Light) (p shown : String) :
    ∃ msg, processDatagram lights ⟨p, .v6 shown⟩ = .panic msg := by
  unfold processDatagram
  cases h : parseResponse p with
  | error e => exact ⟨_, rfl⟩
  | ok hs => exact ⟨_, rfl⟩

theorem runLoop_panic_of_v6 (timeout : Nat) (steps : List RecvStep) :
    ∀ lights,
    (∃ s ∈ steps.takeWhile (fun s => s.elapsed < timeout),
      ∃ d, s.recv = some d ∧ ∃ shown, d.origin = .v6 shown) →
    ∃ msg, (runLoop timeout lights steps).2 = .panic msg := by
  induction steps with
  | nil =>
    intro lights h
    simp at h
  | cons s rest ih =>
    intro lights h
    by_cases hc : s.elapsed < timeout
    · rw [List.takeWhile_cons_of_pos (by simpa using hc)] at h
      rcases h with ⟨t, ht, d, hd, shown, hv6⟩
      rcases List.mem_cons.mp ht with rfl | htrest
      · rcases d with ⟨p, o⟩
        cases hv6
        obtain ⟨msg, hm⟩ := processDatagram_v6_panic lights p shown
        exact ⟨msg, by simp [runLoop, if_pos hc, hd, hm]⟩
      · cases hr : s.recv with
        | none =>
          obtain ⟨msg, hm⟩ := ih lights ⟨t, htrest, d, hd, shown, hv6⟩
          rcases hrec : runLoop timeout lights rest with ⟨n, r⟩
          rw [hrec] at hm
          exact ⟨msg, by simp [runLoop, if_pos hc, hr, hrec]; exact hm⟩
        | some d2 =>
          cases hp : processDatagram lights d2 with
          | panic m =>
            exact ⟨m, by simp [runLoop, if_pos hc, hr, hp]⟩
          | ok lights2 =>
            obtain ⟨msg, hm⟩ := ih lights2 ⟨t, htrest, d, hd, shown, hv6⟩
            rcases hrec : runLoop timeout lights2 rest with ⟨n, r⟩
            rw [hrec] at hm
            exact ⟨msg, by simp [runLoop, if_pos hc, hr, hp, hrec]; exact hm⟩
    · rw [List.takeWhile_cons_of_neg (by simpa using hc)] at h
      simp at h

/-- C8: if any received datagram within the timeout window has an IPv6
source address, the session ends in a panic rather than an error or a
discarded datagram; and on a datagram whose bytes parse, the panic raised
is precisely the IPv6 `panic!` of the source. -/
theorem c8_ipv6_origin_panics :
    (∀ (timeout : Nat) (steps : List RecvStep),
      (∃ s ∈ steps.takeWhile (fun s => s.elapsed < timeout),
        ∃ d, s.recv = some d ∧ ∃ shown, d.origin = .v6 shown) →
      ∃ msg, (get_response true timeout steps).outcome = .panic msg) ∧
    (∀ (lights : List Light) (p : String) (hs : List (String × String))
      (shown : String),
      parseResponse p = .ok hs →
      processDatagram lights ⟨p, .v6 shown⟩ =
        .panic ("Address of light should not be IPv6: " ++ shown)) := by
  constructor
  · intro timeout steps h
    obtain ⟨msg, hm⟩ := runLoop_panic_of_v6 timeout steps [] h
    rcases hr : runLoop timeout [] steps with ⟨n, r⟩
    rw [hr] at hm
    exact ⟨msg, by simp [get_response, hr]; exact hm⟩
  · intro lights p hs shown hp
    simp [processDatagram, hp]

/-- C8 witness: a session receiving one datagram from an IPv6 source within
the timeout window panics, and processing a parseable IPv6-sourced datagram
raises the IPv6 panic message itself. -/
theorem c8_ipv6_origin_panics_witness :
    (∃ msg,
      (get_response true 10
        [⟨0, some ⟨wellFormedPayload, .v6 "ipv6addr"⟩⟩]).outcome =
        .panic msg) ∧
    processDatagram [] ⟨wellFormedPayload, .v6 "ipv6addr"⟩ =
      .panic ("Address of light should not be IPv6: " ++ "ipv6addr") :=
  ⟨c8_ipv6_origin_panics.1 10 [⟨0, some ⟨wellFormedPayload, .v6 "ipv6addr"⟩⟩]
      ⟨⟨0, some ⟨wellFormedPayload, .v6 "ipv6addr"⟩⟩, by decide,
        ⟨wellFormedPayload, .v6 "ipv6addr"⟩, rfl, "ipv6addr", rfl⟩,
    c8_ipv6_origin_panics.2 [] wellFormedPayload
      [("id", "1"), ("model", "m"), ("fw_ver", "1"), ("power", "on"),
       ("support", "a"), ("bright", "1"), ("color_mode", "2"), ("ct", "0"),
       ("rgb", "0"), ("hue", "0"), ("sat", "0"), ("name", "n")]
      "ipv6addr" (by decide)⟩

theorem processDatagram_ok_elim {lights lights2 : List Light} {d : Datagram}
    (h : processDatagram lights d = .ok lights2) :
    lights2 = (match decodeDatagram d with
      | some l => offerLight lights l
      | none => lights) := by
  rcases d with ⟨p, o⟩
  simp only [processDatagram, decodeDatagram] at h ⊢
  cases hp : parseResponse p with
  | error e => simp [hp] at h
  | ok hs =>
    simp only [hp] at h ⊢
    cases o with
    | v6 shown => simp at h
    | v4 origin =>
      cases hf : Light.from_fields (collectHeaders hs) origin with
      | ok nl =>
        simp only [hf, Outcome.ok.injEq] at h
        simpa [hf, Except.toOption] using h.symm
      | error e =>
        simp only [hf, Outcome.ok.injEq] at h
        simpa [hf, Except.toOption] using h.symm

theorem runLoop_ok_foldl (timeout : Nat) (steps : List RecvStep) :
    ∀ lights res, (runLoop timeout lights steps).2 = .ok res →
    res = (decodedLights timeout steps).foldl offerLight lights := by
  induction steps with
  | nil =>
    intro lights res h
    simp only [runLoop] at h
    simp only [decodedLights, List.takeWhile_nil, List.filterMap_nil,
      List.foldl_nil]
    exact (Outcome.ok.inj h).symm
  | cons s rest ih =>
    intro lights res h
    by_cases hc : s.elapsed < timeout
    · have htw : List.takeWhile (fun s => decide (s.elapsed < timeout))
          (s :: rest) =
          s :: List.takeWhile (fun s => decide (s.elapsed < timeout)) rest :=
        List.takeWhile_cons_of_pos (by simpa using hc)
      cases hr : s.recv with
      | none =>
        have hdl : decodedLights timeout (s :: rest) =
            decodedLights timeout rest := by
          simp [decodedLights, htw, List.filterMap_cons, hr]
        simp only [runLoop, if_pos hc, hr] at h
        have h2 : (runLoop timeout lights rest).2 = Outcome.ok res := h
        rw [hdl]
        exact ih lights res h2
      | some d =>
        simp only [runLoop, if_pos hc, hr] at h
        cases hp : processDatagram lights d with
        | panic m => simp only [hp] at h; exact absurd h (by simp)
        | ok lights2 =>
          simp only [hp] at h
          have h2 : (runLoop timeout lights2 rest).2 = Outcome.ok res := h
          have hres := ih lights2 res h2
          have hl2 := processDatagram_ok_elim hp
          cases hdec : decodeDatagram d with
          | none =>
            rw [hdec] at hl2
            have hdl : decodedLights timeout (s :: rest) =
                decodedLights timeout rest := by
              simp [decodedLights, htw, List.filterMap_cons, hr, hdec]
            rw [hdl, hres, hl2]
          | some l =>
            rw [hdec] at hl2
            have hdl : decodedLights timeout (s :: rest) =
                l :: decodedLights timeout rest := by
              simp [decodedLights, htw, List.filterMap_cons, hr, hdec]
            rw [hdl, List.foldl_cons, hres, hl2]
    · have htw : List.takeWhile (fun s => decide (s.elapsed < timeout))
          (s :: rest) = [] :=
        List.takeWhile_cons_of_neg (by simpa using hc)
      simp only [runLoop, if_neg hc] at h
      simp only [decodedLights, htw, List.filterMap_nil, List.foldl_nil]
      exact (Outcome.ok.inj h).symm

theorem offerLight_mem_of_mem {lights : List Light} {l x : Light}
    (h : x ∈ lights) : x ∈ offerLight lights l := by
  unfold offerLight
  split
  · exact h
  · exact List.mem_append_left _ h

theorem offerLight_mem {lights : List Light} {l x : Light}
    (h : x ∈ offerLight lights l) :
    x ∈ lights ∨ (x = l ∧ ¬ idMem lights l.id) := by
  unfold offerLight at h
  by_cases ha : lights.any (fun y => lightEq y l) = true
  · rw [if_pos ha] at h
    exact .inl h
  · rw [if_neg ha] at h
    rcases List.mem_append.mp h with hx | hx
    · exact .inl hx
    · refine .inr ⟨List.mem_singleton.mp hx, ?_⟩
      rintro ⟨y, hy, hid⟩
      exact ha (List.any_eq_true.mpr ⟨y, hy, by simp [lightEq, hid]⟩)

theorem offerLight_idMem (lights : List Light) (l : Light) :
    idMem (offerLight lights l) l.id := by
  unfold offerLight
  split
  · next ha =>
    obtain ⟨y, hy, he⟩ := List.any_eq_true.mp ha
    exact ⟨y, hy, by simpa [lightEq] using he⟩
  · exact ⟨l, List.mem_append_right _ (List.mem_singleton_self l), rfl⟩

theorem offerLight_idMem_mono {lights : List Light} {i : String} (l : Light)
    (h : idMem lights i) : idMem (offerLight lights l) i := by
  obtain ⟨x, hx, hi⟩ := h
  exact ⟨x, offerLight_mem_of_mem hx, hi⟩

theorem offerLight_nodup {lights : List Light} (l : Light)
    (h : (lights.map Light.id).Nodup) :
    ((offerLight lights l).map Light.id).Nodup := by
  unfold offerLight
  split
  · exact h
  · next ha =>
    simp only [List.map_append, List.map_singleton]
    rw [List.nodup_append]
    refine ⟨h, List.nodup_singleton _, ?_⟩
    intro a hamem hasing
    obtain ⟨x, hx, hxa⟩ := List.mem_map.mp hamem
    have hal : a = l.id := List.mem_singleton.mp hasing
    exact ha (List.any_eq_true.mpr ⟨x, hx, by simp [lightEq, hxa, hal]⟩)

theorem foldl_offer_nodup (ds : List Light) :
    ∀ lights, (lights.map Light.id).Nodup →
    ((ds.foldl offerLight lights).map Light.id).Nodup := by
  induction ds with
  | nil => intro l h; simpa using h
  | cons d ds ih =>
    intro l h
    exact ih _ (offerLight_nodup d h)

theorem foldl_offer_mem (ds : List Light) :
    ∀ (lights : List Light) (x : Light), x ∈ ds.foldl offerLight lights →
    x ∈ lights ∨ (¬ idMem lights x.id ∧
      ds.find? (fun d => d.id == x.id) = some x) := by
  induction ds with
  | nil =>
    intro lights x h
    exact .inl (by simpa using h)
  | cons d ds ih =>
    intro lights x h
    rcases ih (offerLight lights d) x (by simpa using h) with hx | ⟨hnm, hfind⟩
    · rcases offerLight_mem hx with hx' | ⟨rfl, hno⟩
      · exact .inl hx'
      · refine .inr ⟨hno, ?_⟩
        have : (fun d => d.id == x.id) x = true := by simp
        simp [List.find?_cons_of_pos, this]
    · have hnl : ¬ idMem lights x.id := fun hh =>
        hnm (offerLight_idMem_mono d hh)
      have hne : (d.id == x.id) = false := by
        refine beq_eq_false_iff_ne.mpr (fun he => hnm ?_)
        exact he ▸ offerLight_idMem lights d
      refine .inr ⟨hnl, ?_⟩
      simp only [List.find?, hne]
      exact hfind

theorem foldl_offer_idMem_mono (ds : List Light) :
    ∀ lights i, idMem lights i → idMem (ds.foldl offerLight lights) i := by
  induction ds with
  | nil => intro lights i h; simpa using h
  | cons d ds ih =>
    intro lights i h
    exact ih _ _ (offerLight_idMem_mono d h)

theorem foldl_offer_covers (ds : List Light) :
    ∀ (lights : List Light) (d : Light), d ∈ ds →
    idMem (ds.foldl offerLight lights) d.id := by
  induction ds with
  | nil => intro lights d h; simp at h
  | cons a ds ih =>
    intro lights d hd
    rcases List.mem_cons.mp hd with rfl | hd'
    · exact foldl_offer_idMem_mono ds _ _ (offerLight_idMem lights d)
    · exact ih _ _ hd'

/-- C5: every session that returns normally retains at most one light per
`id` — the returned collection has pairwise distinct identities — and the
light retained for an identity is the first successfully decoded response
carrying that `id`; conversely every decoded identity is represented. -/
theorem c5_dedupe_first_seen_wins (timeout : Nat) (steps : List RecvStep)
    (lights : List Light)
    (h : (get_response true timeout steps).outcome = .ok lights) :
    (lights.map Light.id).Nodup ∧
    (∀ l ∈ lights,
      (decodedLights timeout steps).find? (fun d => d.id == l.id) = some l) ∧
    (∀ d ∈ decodedLights timeout steps, ∃ l ∈ lights, l.id = d.id) := by
  have hout : (runLoop timeout [] steps).2 = .ok lights := by
    rcases hr : runLoop timeout [] steps with ⟨n, r⟩
    simpa [get_response, hr] using h
  have hres := runLoop_ok_foldl timeout steps [] lights hout
  subst hres
  refine ⟨foldl_offer_nodup _ _ (by simp), ?_, ?_⟩
  · intro l hl
    rcases foldl_offer_mem _ _ l hl with hx | ⟨_, hfind⟩
    · simp at hx
    · exact hfind
  · intro d hd
    exact foldl_offer_covers _ _ d hd

/-- C5 witness: a session receiving two advertisements with the same `id`
(differing in `model`) and one with a distinct `id` returns exactly the
first light of the duplicated identity and the other light, with distinct
identities, each being the first decoded response for its `id`. -/
theorem c5_dedupe_first_seen_wins_witness :
    (([wellFormedLight, otherIdLight].map Light.id).Nodup ∧
      (∀ l ∈ [wellFormedLight, otherIdLight],
        (decodedLights 10
          [⟨0, some ⟨wellFormedPayload, .v4 ⟨(192, 168, 1, 2), 1234⟩⟩⟩,
           ⟨1, some ⟨duplicateIdPayload, .v4 ⟨(192, 168, 1, 2), 1234⟩⟩⟩,
           ⟨2, some ⟨otherIdPayload, .v4 ⟨(192, 168, 1, 2), 1234⟩⟩⟩]).find?
            (fun d => d.id == l.id) = some l) ∧
      (∀ d ∈ decodedLights 10
          [⟨0, some ⟨wellFormedPayload, .v4 ⟨(192, 168, 1, 2), 1234⟩⟩⟩,
           ⟨1, some ⟨duplicateIdPayload, .v4 ⟨(192, 168, 1, 2), 1234⟩⟩⟩,
           ⟨2, some ⟨otherIdPayload, .v4 ⟨(192, 168, 1, 2), 1234⟩⟩⟩],
        ∃ l ∈ [wellFormedLight, otherIdLight], l.id = d.id)) :=
  c5_dedupe_first_seen_wins 10
    [⟨0, some ⟨wellFormedPayload, .v4 ⟨(192, 168, 1, 2), 1234⟩⟩⟩,
     ⟨1, some ⟨duplicateIdPayload, .v4 ⟨(192, 168, 1, 2), 1234⟩⟩⟩,
     ⟨2, some ⟨otherIdPayload, .v4 ⟨(192, 168, 1, 2), 1234⟩⟩⟩]
    [wellFormedLight, otherIdLight] (by decide)

theorem optOr_none_right {α : Type} (x : Option α) : optOr x none = x := by
  cases x <;> rfl

theorem optOr_assoc {α : Type} (x y z : Option α) :
    optOr (optOr x y) z = optOr x (optOr y z) := by
  cases x <;> rfl

theorem hmGet_cons (p : String × String) (m : HeaderMap) (k : String) :
    hmGet (p :: m) k = if p.1 == k then some p.2 else hmGet m k := rfl

theorem hmGet_map_replace (m : HeaderMap) (k v n : String) (hn : n ≠ k) :
    hmGet (m.map (fun p => if p.1 == k then (k, v) else p)) n = hmGet m n := by
  induction m with
  | nil => rfl
  | cons q m ih =>
    simp only [List.map_cons]
    by_cases hq : (q.1 == k) = true
    · have hkn : (k == n) = false := beq_eq_false_iff_ne.mpr (Ne.symm hn)
      have hqn : (q.1 == n) = false := by
        rw [beq_iff_eq.mp hq]
        exact hkn
      rw [if_pos hq]
      simp only [hmGet_cons, hkn, hqn, Bool.false_eq_true, if_false]
      exact ih
    · rw [if_neg hq]
      simp only [hmGet_cons, ih]

theorem hmGet_map_replace_self (m : HeaderMap) (k v : String)
    (ha : m.any (fun p => p.1 == k) = true) :
    hmGet (m.map (fun p => if p.1 == k then (k, v) else p)) k = some v := by
  induction m with
  | nil => simp at ha
  | cons q m ih =>
    simp only [List.map_cons]
    by_cases hq : (q.1 == k) = true
    · rw [if_pos hq]
      simp [hmGet_cons]
    · rw [if_neg hq]
      have ha' : m.any (fun p => p.1 == k) = true := by
        rcases List.any_eq_true.mp ha with ⟨p, hp, hpk⟩
        rcases List.mem_cons.mp hp with rfl | hp'
        · exact absurd hpk hq
        · exact List.any_eq_true.mpr ⟨p, hp', hpk⟩
      simp only [hmGet_cons, hq, Bool.false_eq_true, if_false]
      exact ih ha'

theorem hmGet_append_single (m : HeaderMap) (k v n : String)
    (ha : m.any (fun p => p.1 == k) = false) :
    hmGet (m ++ [(k, v)]) n = if n = k then some v else hmGet m n := by
  induction m with
  | nil =>
    simp only [List.nil_append, hmGet_cons]
    by_cases h : n = k
    · subst h
      simp
    · have : (k == n) = false := beq_eq_false_iff_ne.mpr (Ne.symm h)
      simp [this, h, hmGet]
  | cons q m ih =>
    simp only [List.any_cons, Bool.or_eq_false_iff] at ha
    obtain ⟨hq, ha'⟩ := ha
    simp only [List.cons_append, hmGet_cons]
    by_cases hqn : (q.1 == n) = true
    · have hnk : ¬ n = k := by
        intro h
        rw [h] at hqn
        rw [hqn] at hq
        cases hq
      simp [hqn, if_neg hnk]
    · simp only [hqn, Bool.false_eq_true, if_false]
      exact ih ha'

theorem hmGet_insert (m : HeaderMap) (k v n : String) :
    hmGet (hmInsert m k v) n = if n = k then some v else hmGet m n := by
  unfold hmInsert
  by_cases ha : m.any (fun p => p.1 == k) = true
  · rw [if_pos ha]
    by_cases hn : n = k
    · subst hn
      rw [if_pos rfl]
      exact hmGet_map_replace_self m n v ha
    · rw [if_neg hn]
      exact hmGet_map_replace m k v n hn
  · rw [if_neg ha]
    refine hmGet_append_single m k v n ?_
    cases hb : m.any (fun p => p.1 == k) with
    | true => exact absurd hb ha
    | false => rfl

theorem foldl_insert_get (hs : List (String × String)) :
    ∀ (acc : HeaderMap) (n : String),
    hmGet (hs.foldl (fun m h => hmInsert m h.1 h.2) acc) n =
      optOr (lastHeaderValue hs n) (hmGet acc n) := by
  induction hs with
  | nil =>
    intro acc n
    simp [lastHeaderValue, optOr]
  | cons q hs ih =>
    intro acc n
    simp only [List.foldl_cons, lastHeaderValue]
    rw [ih, hmGet_insert, optOr_assoc]
    congr 1
    by_cases h : n = q.1
    · subst h
      simp [optOr]
    · have : (q.1 == n) = false := beq_eq_false_iff_ne.mpr (Ne.symm h)
      simp [this, h, optOr]

theorem hmInsert_keys_of_mem (m : HeaderMap) (k v : String)
    (ha : m.any (fun p => p.1 == k) = true) :
    hmKeys (hmInsert m k v) = hmKeys m := by
  unfold hmInsert hmKeys
  rw [if_pos ha, List.map_map]
  refine List.map_congr_left ?_
  intro p hp
  by_cases hq : (p.1 == k) = true
  · simp [Function.comp, hq, (beq_iff_eq.mp hq).symm]
  · simp [Function.comp, hq]

theorem hmInsert_keys_of_not_mem (m : HeaderMap) (k v : String)
    (ha : m.any (fun p => p.1 == k) = false) :
    hmKeys (hmInsert m k v) = hmKeys m ++ [k] := by
  unfold hmInsert hmKeys
  rw [if_neg (by simp [ha])]
  simp

theorem hmInsert_keys_nodup (m : HeaderMap) (k v : String)
    (h : (hmKeys m).Nodup) : (hmKeys (hmInsert m k v)).Nodup := by
  by_cases ha : m.any (fun p => p.1 == k) = true
  · rw [hmInsert_keys_of_mem m k v ha]
    exact h
  · have haf : m.any (fun p => p.1 == k) = false := by
      cases hb : m.any (fun p => p.1 == k) with
      | true => exact absurd hb ha
      | false => rfl
    rw [hmInsert_keys_of_not_mem m k v haf]
    rw [List.nodup_append]
    refine ⟨h, List.nodup_singleton _, ?_⟩
    intro a hak has
    rw [List.mem_singleton.mp has] at hak
    obtain ⟨p, hp, hpk⟩ := List.mem_map.mp hak
    exact ha (List.any_eq_true.mpr ⟨p, hp, by simp [hpk]⟩)

theorem collectHeaders_keys_nodup (hs : List (String × String)) :
    (hmKeys (collectHeaders hs)).Nodup := by
  suffices h : ∀ acc, (hmKeys acc).Nodup →
      (hmKeys (hs.foldl (fun m h => hmInsert m h.1 h.2) acc)).Nodup by
    exact h [] (by simp [hmKeys])
  induction hs with
  | nil =>
    intro acc h
    exact h
  | cons q hs ih =>
    intro acc h
    exact ih _ (hmInsert_keys_nodup _ _ _ h)

theorem hmGet_some_mem_keys {m : HeaderMap} {n v : String}
    (h : hmGet m n = some v) : n ∈ hmKeys m := by
  induction m with
  | nil => simp [hmGet] at h
  | cons q m ih =>
    rw [hmGet_cons] at h
    by_cases hq : (q.1 == n) = true
    · rw [← beq_iff_eq.mp hq]
      exact List.mem_cons_self _ _
    · rw [if_neg (by simpa using hq)] at h
      exact List.mem_cons_of_mem _ (ih h)

theorem nodup_keys_countP {m : HeaderMap} {n : String}
    (hnd : (hmKeys m).Nodup) (hmem : n ∈ hmKeys m) :
    m.countP (fun p => p.1 == n) = 1 := by
  induction m with
  | nil => simp [hmKeys] at hmem
  | cons q m ih =>
    obtain ⟨hq1, hnd'⟩ := List.nodup_cons.mp hnd
    rw [List.countP_cons]
    rcases List.mem_cons.mp hmem with hq | hmem'
    · subst hq
      have hz : m.countP (fun p => p.1 == q.1) = 0 := by
        rw [List.countP_eq_zero]
        intro p hp
        simp only [beq_iff_eq]
        intro hpn
        exact hq1 (List.mem_map.mpr ⟨p, hp, hpn⟩)
      simp [hz]
    · have hne : (q.1 == n) = false := by
        refine beq_eq_false_iff_ne.mpr (fun he => hq1 ?_)
        rw [he]
        exact hmem'
      simp [hne, ih hnd' hmem']

theorem lastHeaderValue_isSome {hs : List (String × String)} {n : String}
    (hmem : n ∈ hs.map Prod.fst) : ∃ v, lastHeaderValue hs n = some v := by
  induction hs with
  | nil => simp at hmem
  | cons q hs ih =>
    simp only [lastHeaderValue]
    rcases List.mem_cons.mp hmem with hq | hmem'
    · cases hlast : lastHeaderValue hs n with
      | some v => exact ⟨v, by simp [optOr]⟩
      | none =>
        refine ⟨q.2, ?_⟩
        rw [if_pos (beq_iff_eq.mpr hq.symm)]
        rfl
    · obtain ⟨v, hv⟩ := ih hmem'
      exact ⟨v, by simp [hv, optOr]⟩

/-- C6: when a successfully parsed datagram contains several header lines
with the same name, the header map handed to the decoder has exactly one
entry for that name, holding the value of the last such header line. -/
theorem c6_duplicate_headers_last_wins (payload : String)
    (hs : List (String × String)) (n : String)
    (_hparse : parseResponse payload = .ok hs) (hmem : n ∈ hs.map Prod.fst) :
    (collectHeaders hs).countP (fun p => p.1 == n) = 1 ∧
    hmGet (collectHeaders hs) n = lastHeaderValue hs n := by
  have hget : hmGet (collectHeaders hs) n = lastHeaderValue hs n := by
    rw [collectHeaders, foldl_insert_get]
    simp [hmGet, optOr_none_right]
  refine ⟨?_, hget⟩
  obtain ⟨v, hv⟩ := lastHeaderValue_isSome hmem
  exact nodup_keys_countP (collectHeaders_keys_nodup hs)
    (hmGet_some_mem_keys (hget.trans hv))

/-- C6 witness: a parsed datagram carrying two `a` headers yields a map with
a single `a` entry holding the value of the later line. -/
theorem c6_duplicate_headers_last_wins_witness :
    (collectHeaders [("a", "1"), ("a", "2")]).countP (fun p => p.1 == "a") = 1 ∧
    hmGet (collectHeaders [("a", "1"), ("a", "2")]) "a" =
      lastHeaderValue [("a", "1"), ("a", "2")] "a" :=
  c6_duplicate_headers_last_wins "HTTP/1.1 200 OK\r\na: 1\r\na: 2\r\nb: b"
    [("a", "1"), ("a", "2")] "a" (by decide) (by decide)

/-- C9 witness: two concrete maps agreeing on the required fields but with
different extra entries decode to the same result. -/
theorem c9_irrelevant_keys_noninterference_witness :
    Light.from_fields (("Location", "yeelight://192.168.1.123:12345") :: fixtureMap)
        ⟨(192, 168, 0, 42), 1234⟩ =
      Light.from_fields (fixtureMap ++ [("Server", "POSIX UPnP/1.0 YGLC/1")])
        ⟨(192, 168, 0, 42), 1234⟩ :=
  c9_irrelevant_keys_noninterference _ _ _ (by decide)

end Yee
